import Mathlib

/-!
Verification of the Weaver research-orchestration core.

This file shallowly embeds the orchestration-related Python source
(`app/orchestrator/coordinator.py`, `app/agents/researcher.py`,
`app/agents/reviser.py`, `app/models/research.py`) in Lean 4 and proves the
specified control-flow and data-model properties about the embedding.

Modelling conventions:
* Python floats used for scores are modelled as `ℚ` (all score values in the
  code flow are decimal literals / small sums, representable exactly).
* Wall-clock data (timestamps, durations) is abstracted away: no property
  here depends on it.
* The LLM, search-provider and database collaborators are external to the
  core (spec §1); they appear as explicit parameters: capability behaviours
  are functions `ResearchTask → Except String _` (a `.error e` models the
  collaborator raising an exception with text `e`), and database writes are
  recorded as trace events.  The database-manager methods in
  `app/database/connection.py` wrap every operation in `try/except` and
  swallow their own failures, so persistence calls never raise into the
  coordinator; the model therefore treats them as always-returning.
* A single task is in flight, so the `task_id` argument threaded through the
  Python methods is dropped from trace events.
-/

/-- `ResearchStatus` from `app/models/research.py`. -/
inductive ResearchStatus where
  | pending
  | planning
  | in_progress
  | reviewing
  | revising
  | completed
  | failed
deriving DecidableEq, Repr

/-- `AgentType` from `app/models/research.py`. -/
inductive AgentType where
  | planner
  | researcher
  | critic
  | reviser
deriving DecidableEq, Repr

/-- `ResearchQuery` from `app/models/research.py`. -/
structure ResearchQuery where
  topic : String
  subtopics : List String
  depth_level : Nat
  requirements : Option String
deriving DecidableEq, Repr

/-- `ResearchPlan` from `app/models/research.py`. -/
structure ResearchPlan where
  main_topic : String
  subtopics : List String
  search_queries : List String
  required_data_points : List String
deriving DecidableEq, Repr

/-- `ResearchSource` from `app/models/research.py` (scores as `ℚ`). -/
structure ResearchSource where
  id : Option String
  title : String
  url : Option String
  content : String
  relevance_score : ℚ
  credibility_score : ℚ
deriving DecidableEq, Repr

/-- `ResearchSection` from `app/models/research.py`. -/
structure ResearchSection where
  title : String
  content : String
  source_ids : List String
deriving DecidableEq, Repr

/-- A value of the free-form `metadata: Dict[str, Any]` map on a report.
The code only ever stores numbers and strings there. -/
inductive MetaVal where
  | num (q : ℚ)
  | str (s : String)
deriving DecidableEq, Repr

/-- `ResearchReport` from `app/models/research.py`; the `metadata` dict is
an association list looked up by first match. -/
structure ResearchReport where
  title : String
  abstract : String
  sections : List ResearchSection
  conclusion : String
  references : List ResearchSource
  metadata : List (String × MetaVal)
deriving DecidableEq, Repr

/-- `CritiqueFeedback` from `app/models/research.py`. -/
structure CritiqueFeedback where
  overall_score : ℚ
  critique_round : Nat
  strengths : List String
  weaknesses : List String
  missing_information : List String
  actionable_suggestions : List String
  decision : String
deriving DecidableEq, Repr

/-- `ToolCallRecord` from `app/models/research.py` (timestamp/duration
abstracted away: wall-clock data). -/
structure ToolCallRecord where
  tool_name : String
  query : String
  result_count : Nat
  success : Bool
  error : Option String
deriving DecidableEq, Repr

/-- `ResearchTask` from `app/models/research.py` (timestamps dropped;
`raw_search_results` holds the dumped sources themselves rather than
their dict serialisations). -/
structure ResearchTask where
  id : Option String
  query : ResearchQuery
  status : ResearchStatus
  plan : Option ResearchPlan
  raw_search_results : List ResearchSource
  current_report : Option ResearchReport
  feedback_history : List CritiqueFeedback
  tools_called : List ToolCallRecord
  revision_count : Nat
  max_revisions : Nat
deriving DecidableEq, Repr

/-- One observable action of the coordinator: a persisted status write
(`_update_status`, which also notifies observers), a log emission
(`_log`), or an invocation of the critique/revision capability. -/
inductive Event where
  | statusUpdate (status : ResearchStatus)
  | logMessage (agent : AgentType) (message : String)
  | criticCall
  | reviserCall
deriving DecidableEq, Repr

/-- The sequence of statuses persisted by a trace, in write order. -/
def statusWrites (events : List Event) : List ResearchStatus :=
  events.filterMap fun e =>
    match e with
    | Event.statusUpdate s => some s
    | _ => none

/-- The last status persisted by a trace, if any. -/
def finalStatus (events : List Event) : Option ResearchStatus :=
  (statusWrites events).getLast?

/-- Number of Revision Capability invocations in a trace. -/
def reviser_calls (events : List Event) : Nat :=
  events.countP fun e => decide (e = Event.reviserCall)

/-- Number of Critique Capability invocations in a trace. -/
def critic_calls (events : List Event) : Nat :=
  events.countP fun e => decide (e = Event.criticCall)

/-- `self.min_quality_score = 6.5` from `ResearchCoordinator.__init__`. -/
def min_quality_score : ℚ := 6.5

/-- The dict key used by `_gather_data_parallel`'s dedup loop:
`if s.url and s.url not in unique_sources` — a `None` or empty URL is
falsy in Python, so such a source is never inserted. -/
def urlKey (s : ResearchSource) : Option String :=
  match s.url with
  | none => none
  | some u => if u = "" then none else some u

/-- The dedup loop of `_gather_data_parallel` (researcher.py lines
177–185): `seen` is the set of keys already in `unique_sources`; the
output lists the surviving values in insertion order (first occurrence
of each URL wins). -/
def dedupAux (seen : List String) : List ResearchSource → List ResearchSource
  | [] => []
  | s :: rest =>
    match urlKey s with
    | none => dedupAux seen rest
    | some u => if u ∈ seen then dedupAux seen rest else s :: dedupAux (u :: seen) rest

/-- `list(unique_sources.values())` for an initially empty dict. -/
def dedupByUrl (sources : List ResearchSource) : List ResearchSource :=
  dedupAux [] sources

/-- `_gather_data_parallel`: the two providers run concurrently
(fan-out/fan-in); their results are flattened in task order
(web search first, Wikipedia second) and deduplicated by URL.  A failed
provider contributes an empty list (its wrapper catches and returns
`[]`). -/
def gather_data_parallel (webResults wikiResults : List ResearchSource) :
    List ResearchSource :=
  dedupByUrl (webResults ++ wikiResults)

/-- Update of the report `metadata` dict: `md[k] = v` (equivalently the
override produced by a `{**md, k: v}` merge).  Lookup is by first match,
so the overridden binding shadows any previous one. -/
def mdSet (md : List (String × MetaVal)) (k : String) (v : MetaVal) :
    List (String × MetaVal) :=
  (k, v) :: md.filter fun p => decide (p.1 ≠ k)

/-- `report.metadata.get("revision_number", 1)` in `ReviserAgent.process`.
Every writer of this key in the repository stores a number, so a
non-numeric value (which would make the subsequent `+ 1` raise a
`TypeError` in Python) is unreachable and mapped to the default. -/
def currentRevisionNumber (md : List (String × MetaVal)) : ℚ :=
  match md.lookup "revision_number" with
  | some (MetaVal.num q) => q
  | _ => 1

/-- `ReviserAgent.process` (reviser.py): precondition checks, then the
LLM produces `revised_report` (`genReport`, an external-capability
output), whose metadata the post-processing step replaces by the prior
report's metadata with `revision_number` incremented, the triggering
critique score, and an attribution tag. -/
def reviserProcess (task : ResearchTask) (genReport : ResearchReport) :
    Except String ResearchReport :=
  match task.current_report with
  | none => Except.error "Reviser cannot work without an existing report."
  | some report =>
    match task.feedback_history.getLast? with
    | none => Except.error "Reviser cannot work without critique feedback."
    | some feedback =>
      Except.ok { genReport with
        metadata :=
          mdSet
            (mdSet
              (mdSet report.metadata "revision_number"
                (MetaVal.num (currentRevisionNumber report.metadata + 1)))
              "last_critique_score" (MetaVal.num feedback.overall_score))
            "revised_by" (MetaVal.str "AI_Reviser_Agent") }

/-- `_write_report` post-processing (researcher.py lines 225–229): the
first draft's metadata is stamped with the generating agent and the
source count; no revision number is stamped here. -/
def writeReportPost (genReport : ResearchReport)
    (sources : List ResearchSource) : ResearchReport :=
  { genReport with
    metadata :=
      mdSet (mdSet genReport.metadata "generated_by" (MetaVal.str "ResearcherAgent"))
        "source_count" (MetaVal.num sources.length) }

/-- The fields `ResearcherAgent.process` writes into the task, plus its
return value.  The researcher touches only `plan`, `raw_search_results`
and `tools_called` (and the in-memory `status`, which it never persists)
and returns the drafted report. -/
structure ResearcherOutput where
  plan : Option ResearchPlan
  raw_search_results : List ResearchSource
  tools_called : List ToolCallRecord
  report : ResearchReport
deriving DecidableEq, Repr

/-- `ResearcherAgent.process` (researcher.py): generate a plan only if
absent, gather from both providers concurrently, dedup by URL, store the
flat dump in `raw_search_results`, and draft a report from exactly the
deduplicated sources.  The LLM outputs (`genPlan`, `genReport`) and the
provider result lists are external-capability inputs; `toolRecords` are
the audit records the per-provider wrappers append (their timing/success
contents are provider-dependent). -/
def researcherProcess (task : ResearchTask) (genPlan : ResearchPlan)
    (webResults wikiResults : List ResearchSource)
    (toolRecords : List ToolCallRecord) (genReport : ResearchReport) :
    ResearcherOutput :=
  let plan := match task.plan with
    | some p => some p
    | none => some genPlan
  let rawSources := gather_data_parallel webResults wikiResults
  { plan := plan
    raw_search_results := rawSources
    tools_called := task.tools_called ++ toolRecords
    report := writeReportPost genReport rawSources }

/-- The sources `ResearcherAgent.process` hands to `_write_report`
(exactly the deduplicated gather output). -/
def researcherDraftSources (webResults wikiResults : List ResearchSource) :
    List ResearchSource :=
  gather_data_parallel webResults wikiResults

/-- How the refinement loop ended: quality gate passed (`return`), the
`while` bound exhausted, or a cycle exception broke out of the loop. -/
inductive LoopExit where
  | gatePassed
  | exhausted
  | errored
deriving DecidableEq, Repr

/-- Result of the refinement loop: the (locally mutated) task, the trace
of observable actions, and how the loop ended. -/
structure LoopResult where
  task : ResearchTask
  events : List Event
  exit : LoopExit
deriving Repr

/-- `f"Refinement error: {str(e)[:100]}. Continuing with current report."` -/
def refinementErrorMsg (e : String) : String :=
  "Refinement error: " ++ e.take 100 ++ ". Continuing with current report."

/-- The `while loop_count < max_loops` body of `_enter_refinement_loop`
(coordinator.py lines 165–206), transcribed round by round.  `fuel` is
`max_loops - loop_count`; `loopCount` is the Python `loop_count` (used
only in the round log line).  The capabilities are behaviour functions of
the task; a `.error e` models `critic.process`/`reviser.process` raising.
All other calls in the body (`save_feedback`, `save_report`,
`increment_revision_count`, `_update_status`, `_log`) swallow their own
exceptions in `connection.py`, so only the two capability calls can
trigger the `except` branch, which logs and `break`s. -/
def refinementRounds (critic : ResearchTask → Except String CritiqueFeedback)
    (reviser : ResearchTask → Except String ResearchReport)
    (minQuality : ℚ) :
    Nat → Nat → ResearchTask → LoopResult
  | 0, _, task => ⟨task, [], LoopExit.exhausted⟩
  | fuel + 1, loopCount, task =>
    let evs0 := [Event.statusUpdate ResearchStatus.reviewing, Event.criticCall]
    match critic task with
    | Except.error e =>
      ⟨task, evs0 ++ [Event.logMessage AgentType.critic (refinementErrorMsg e)],
       LoopExit.errored⟩
    | Except.ok feedback =>
      let task1 := { task with feedback_history := task.feedback_history ++ [feedback] }
      let evs1 := evs0 ++
        [Event.logMessage AgentType.critic
          ("Round " ++ toString (loopCount + 1) ++ " Score: "
            ++ toString feedback.overall_score ++ "/10")]
      if minQuality ≤ feedback.overall_score then
        ⟨task1, evs1 ++ [Event.logMessage AgentType.critic "Quality Gate Passed."],
         LoopExit.gatePassed⟩
      else
        let evs2 := evs1 ++
          [Event.statusUpdate ResearchStatus.revising,
           Event.logMessage AgentType.reviser "Implementing improvements...",
           Event.reviserCall]
        match reviser task1 with
        | Except.error e =>
          ⟨task1, evs2 ++ [Event.logMessage AgentType.critic (refinementErrorMsg e)],
           LoopExit.errored⟩
        | Except.ok newReport =>
          let task2 := { task1 with
            current_report := some newReport
            revision_count := task1.revision_count + 1 }
          let evs3 := evs2 ++
            [Event.logMessage AgentType.reviser
              ("Revision " ++ toString task2.revision_count ++ " completed.")]
          let rest := refinementRounds critic reviser minQuality fuel (loopCount + 1) task2
          ⟨rest.task, evs3 ++ rest.events, rest.exit⟩

/-- `_enter_refinement_loop` (coordinator.py lines 158–208): the loop
budget is the hard-coded `max_loops = 1`; the trailing
"Refinement phase completed" log is reached only when the loop was not
left through the quality-gate `return`. -/
def enter_refinement_loop (critic : ResearchTask → Except String CritiqueFeedback)
    (reviser : ResearchTask → Except String ResearchReport)
    (minQuality : ℚ) (task : ResearchTask) : LoopResult :=
  let r := refinementRounds critic reviser minQuality 1 0 task
  match r.exit with
  | LoopExit.gatePassed => r
  | _ =>
    { r with events := r.events ++
        [Event.logMessage AgentType.researcher
          "Refinement phase completed. Finalizing report."] }

/-- The plan-persistence log line emitted by `start_workflow`
(coordinator.py lines 121–123) when the task has a plan. -/
def planLogs (plan : Option ResearchPlan) : List Event :=
  match plan with
  | some p =>
    [Event.logMessage AgentType.researcher
      ("Research plan saved: " ++ toString p.search_queries.length ++ " queries")]
  | none => []

/-- The raw-results log line emitted by `start_workflow` (coordinator.py
lines 134–136) when raw results are non-empty. -/
def rawLogs (results : List ResearchSource) : List Event :=
  if results.isEmpty then []
  else
    [Event.logMessage AgentType.researcher
      ("Saved " ++ toString results.length ++ " raw search results")]

/-- The tool-call log lines emitted by `start_workflow` (coordinator.py
lines 125–131) when `task.tools_called` is non-empty. -/
def toolLogs (records : List ToolCallRecord) : List Event :=
  if records.isEmpty then []
  else
    Event.logMessage AgentType.researcher
        ("[TOOLS_USED] " ++ String.intercalate ", " (records.map fun r => r.tool_name))
      :: records.map fun r =>
        Event.logMessage AgentType.researcher
          ("[TOOL_CALL] " ++ r.tool_name ++ "(" ++ r.query.take 50 ++ "...) -> "
            ++ toString r.result_count ++ " results")

/-- Result of `start_workflow`: the coordinator's local task object at the
end of the run (`none` when the initial DB lookup found no task) and the
trace of observable actions.  The function is total: the Python method
wraps its whole body in `try/except`, so no exception escapes `run`. -/
structure WorkflowResult where
  task : Option ResearchTask
  events : List Event
deriving Repr

/-- `start_workflow` (coordinator.py lines 100–156).  `lookup` is the
result of the initial `db.get_task`; the three capabilities are behaviour
functions.  Within the `try` body only `researcher.process` can raise
into the top-level handler: the refinement loop catches its own
capability errors, and every persistence/log call swallows its own
exceptions in `connection.py`.  The handler persists `failed` and logs
the error text; nothing is re-raised. -/
def start_workflow (lookup : Option ResearchTask)
    (researcher : ResearchTask → Except String ResearcherOutput)
    (critic : ResearchTask → Except String CritiqueFeedback)
    (reviser : ResearchTask → Except String ResearchReport) : WorkflowResult :=
  match lookup with
  | none => ⟨none, []⟩
  | some task =>
    let evs0 := [Event.statusUpdate ResearchStatus.in_progress,
                 Event.logMessage AgentType.researcher "Starting Deep Research..."]
    match researcher task with
    | Except.error e =>
      ⟨some task,
       evs0 ++ [Event.statusUpdate ResearchStatus.failed,
                Event.logMessage AgentType.researcher ("CRITICAL ERROR: " ++ e)]⟩
    | Except.ok out =>
      let task1 := { task with
        plan := out.plan
        raw_search_results := out.raw_search_results
        tools_called := out.tools_called }
      let evs1 := evs0 ++ planLogs task1.plan
      let evs2 := evs1 ++ toolLogs task1.tools_called
      let evs3 := evs2 ++ rawLogs task1.raw_search_results
      let evs4 := evs3 ++ [Event.logMessage AgentType.researcher "Draft v1 generated."]
      let task2 := { task1 with current_report := some out.report }
      let lr := enter_refinement_loop critic reviser min_quality_score task2
      ⟨some lr.task,
       evs4 ++ lr.events ++
         [Event.statusUpdate ResearchStatus.completed,
          Event.logMessage AgentType.researcher "Workflow Completed Successfully."]⟩

/-- `cancel_task` (coordinator.py lines 237–250): reject when the task is
unknown or already terminal; otherwise persist `failed`, log, and accept. -/
def cancel_task (lookup : Option ResearchTask) : Bool × List Event :=
  match lookup with
  | none => (false, [])
  | some task =>
    if task.status = ResearchStatus.completed ∨ task.status = ResearchStatus.failed then
      (false, [])
    else
      (true,
       [Event.statusUpdate ResearchStatus.failed,
        Event.logMessage AgentType.planner "Task cancelled by user request."])

/-- A `cancel_task` call interleaved into a run's status-write sequence
after the run's first `k` writes.  The store holds `initialStatus` before
the run's first write; `cancel_task` reads the task (read-then-write, no
concurrency control) and, when the status it sees is non-terminal,
appends its own `failed` write; the run's remaining writes follow.
Returns the store's full write sequence and whether the cancellation was
accepted. -/
def cancelInterleavedWrites (initialStatus : ResearchStatus)
    (runWrites : List ResearchStatus) (k : Nat) :
    List ResearchStatus × Bool :=
  let before := runWrites.take k
  let seen := before.getLastD initialStatus
  if seen = ResearchStatus.completed ∨ seen = ResearchStatus.failed then
    (runWrites, false)
  else
    (before ++ [ResearchStatus.failed] ++ runWrites.drop k, true)

/-- `_notify_observers` (coordinator.py lines 56–59): each registered
callback's behaviour on the delivered event is modelled by its outcome
(`.ok ()` = returns, `.error e` = raises).  The loop awaits the callbacks
in registration order with no exception handling, so the first raising
callback ends the loop and the exception propagates to the emitter. -/
def notify_observers : List (Except String Unit) → Except String Unit
  | [] => Except.ok ()
  | Except.ok () :: rest => notify_observers rest
  | Except.error e :: _ => Except.error e

/-- The indices of the callbacks `_notify_observers` actually invokes,
in invocation order, starting the numbering at `i` (a raising callback is
itself invoked, then the loop dies). -/
def invokedFrom (i : Nat) : List (Except String Unit) → List Nat
  | [] => []
  | Except.ok () :: rest => i :: invokedFrom (i + 1) rest
  | Except.error _ :: _ => [i]

/-- The registration-order indices of the listeners that receive a given
delivery. -/
def invoked (callbacks : List (Except String Unit)) : List Nat :=
  invokedFrom 0 callbacks

/-- `create_task` (coordinator.py lines 79–97): allocate a fresh pending
task around the query; all loop-control fields take their model defaults
(`revision_count = 0`, `max_revisions = 3`); the id is assigned by the
store. -/
def create_task (taskId : Option String) (query : ResearchQuery) : ResearchTask :=
  { id := taskId
    query := query
    status := ResearchStatus.pending
    plan := none
    raw_search_results := []
    current_report := none
    feedback_history := []
    tools_called := []
    revision_count := 0
    max_revisions := 3 }

/-! Concrete fixtures used to instantiate the theorems below. -/

/-- A concrete query (end-to-end scenario A of the spec). -/
def sampleQuery : ResearchQuery :=
  { topic := "Impact of remote work on urban housing"
    subtopics := []
    depth_level := 3
    requirements := none }

/-- A freshly created pending task. -/
def sampleTask : ResearchTask := create_task (some "t1") sampleQuery

/-- A concrete plan. -/
def samplePlan : ResearchPlan :=
  { main_topic := "Impact of remote work on urban housing"
    subtopics := ["prices"]
    search_queries := ["remote work housing prices"]
    required_data_points := ["vacancy rate 2024"] }

/-- A concrete source with URL `u`. -/
def srcAt (u : String) (t : String) : ResearchSource :=
  { id := none, title := t, url := some u, content := "snippet",
    relevance_score := 0, credibility_score := 0 }

/-- A concrete source with no URL at all. -/
def srcNoUrl : ResearchSource :=
  { id := none, title := "no-url", url := none, content := "snippet",
    relevance_score := 0, credibility_score := 0 }

/-- A concrete report draft. -/
def sampleReport : ResearchReport :=
  { title := "Draft", abstract := "a", sections := [], conclusion := "c",
    references := [], metadata := [] }

/-- A concrete revised report (as produced by the revision capability). -/
def sampleReport2 : ResearchReport :=
  { title := "Draft v2", abstract := "a2", sections := [], conclusion := "c2",
    references := [], metadata := [] }

/-- A concrete critique with the given score. -/
def sampleFeedback (score : ℚ) (dec : String) : CritiqueFeedback :=
  { overall_score := score
    critique_round := 1
    strengths := ["clear"]
    weaknesses := ["shallow"]
    missing_information := []
    actionable_suggestions := ["add data"]
    decision := dec }

/-- A concrete researcher output (plan generated, both providers returned
one source each, no tool records modelled). -/
def sampleResearcherOutput : ResearcherOutput :=
  researcherProcess sampleTask samplePlan [srcAt "A" "a"] [srcAt "B" "b"] [] sampleReport

/-! Helper lemmas about trace fragments and the loop. -/

/-- A trace fragment consisting solely of log emissions. -/
def onlyLogs (evs : List Event) : Bool :=
  evs.all fun e =>
    match e with
    | Event.logMessage _ _ => true
    | _ => false

theorem statusWrites_of_onlyLogs :
    ∀ {evs : List Event}, onlyLogs evs = true → statusWrites evs = []
  | [], _ => rfl
  | e :: rest, h => by
    cases e with
    | logMessage a m =>
      have h' : onlyLogs rest = true := by simpa [onlyLogs] using h
      simpa [statusWrites, List.filterMap_cons] using statusWrites_of_onlyLogs h'
    | statusUpdate s => simp [onlyLogs] at h
    | criticCall => simp [onlyLogs] at h
    | reviserCall => simp [onlyLogs] at h

theorem reviser_calls_of_onlyLogs :
    ∀ {evs : List Event}, onlyLogs evs = true → reviser_calls evs = 0
  | [], _ => rfl
  | e :: rest, h => by
    cases e with
    | logMessage a m =>
      have h' : onlyLogs rest = true := by simpa [onlyLogs] using h
      simpa [reviser_calls, List.countP_cons] using reviser_calls_of_onlyLogs h'
    | statusUpdate s => simp [onlyLogs] at h
    | criticCall => simp [onlyLogs] at h
    | reviserCall => simp [onlyLogs] at h

theorem onlyLogs_planLogs (o : Option ResearchPlan) : onlyLogs (planLogs o) = true := by
  cases o <;> simp [planLogs, onlyLogs]

theorem onlyLogs_toolLogs (rs : List ToolCallRecord) : onlyLogs (toolLogs rs) = true := by
  by_cases h : rs.isEmpty <;> simp [toolLogs, h, onlyLogs, List.all_map, Function.comp]

theorem onlyLogs_rawLogs (rs : List ResearchSource) : onlyLogs (rawLogs rs) = true := by
  by_cases h : rs.isEmpty <;> simp [rawLogs, h, onlyLogs]

/-- Loop invariant: the locally mutated task's revision counter grows by
at most the remaining loop budget. -/
theorem refinementRounds_revision_count_le
    (critic : ResearchTask → Except String CritiqueFeedback)
    (reviser : ResearchTask → Except String ResearchReport) (m : ℚ)
    (fuel : Nat) :
    ∀ (k : Nat) (task : ResearchTask),
      (refinementRounds critic reviser m fuel k task).task.revision_count
        ≤ task.revision_count + fuel := by
  induction fuel with
  | zero => intro k task; simp [refinementRounds]
  | succ n ih =>
    intro k task
    simp only [refinementRounds]
    cases hc : critic task with
    | error e => simp
    | ok f =>
      by_cases hge : m ≤ f.overall_score
      · simp [hge]
      · simp only [if_neg hge]
        cases hr : reviser { task with feedback_history := task.feedback_history ++ [f] } with
        | error e => simp
        | ok rep =>
          have h2 := ih (k+1) { task with
            feedback_history := task.feedback_history ++ [f]
            current_report := some rep
            revision_count := task.revision_count + 1 }
          simp at h2 ⊢
          omega

/-- Loop frame: the refinement loop never touches `raw_search_results`. -/
theorem refinementRounds_raw_search_results
    (critic : ResearchTask → Except String CritiqueFeedback)
    (reviser : ResearchTask → Except String ResearchReport) (m : ℚ)
    (fuel : Nat) :
    ∀ (k : Nat) (task : ResearchTask),
      (refinementRounds critic reviser m fuel k task).task.raw_search_results
        = task.raw_search_results := by
  induction fuel with
  | zero => intro k task; simp [refinementRounds]
  | succ n ih =>
    intro k task
    simp only [refinementRounds]
    cases hc : critic task with
    | error e => simp
    | ok f =>
      by_cases hge : m ≤ f.overall_score
      · simp [hge]
      · simp only [if_neg hge]
        cases hr : reviser { task with feedback_history := task.feedback_history ++ [f] } with
        | error e => simp
        | ok rep =>
          have h2 := ih (k+1) { task with
            feedback_history := task.feedback_history ++ [f]
            current_report := some rep
            revision_count := task.revision_count + 1 }
          simp at h2 ⊢
          exact h2

/-- The wrapper's trailing log does not change the resulting task. -/
theorem enter_refinement_loop_task
    (critic : ResearchTask → Except String CritiqueFeedback)
    (reviser : ResearchTask → Except String ResearchReport)
    (m : ℚ) (task : ResearchTask) :
    (enter_refinement_loop critic reviser m task).task
      = (refinementRounds critic reviser m 1 0 task).task := by
  cases h : (refinementRounds critic reviser m 1 0 task).exit <;>
    simp [enter_refinement_loop, h]

/-- With the hard-coded budget of one round, the refinement loop persists
either `reviewing` alone (critique raised, or gate passed) or `reviewing`
then `revising`. -/
theorem loop_statusWrites
    (critic : ResearchTask → Except String CritiqueFeedback)
    (reviser : ResearchTask → Except String ResearchReport)
    (m : ℚ) (task : ResearchTask) :
    statusWrites (enter_refinement_loop critic reviser m task).events
        = [ResearchStatus.reviewing] ∨
    statusWrites (enter_refinement_loop critic reviser m task).events
        = [ResearchStatus.reviewing, ResearchStatus.revising] := by
  simp only [enter_refinement_loop, refinementRounds]
  cases hc : critic task with
  | error e => left; simp [statusWrites]
  | ok f =>
    by_cases hge : m ≤ f.overall_score
    · left; simp [hge, statusWrites]
    · simp only [if_neg hge]
      cases hr : reviser { task with feedback_history := task.feedback_history ++ [f] } with
      | error e => right; simp [statusWrites]
      | ok rep => right; simp [statusWrites, refinementRounds]

theorem card_insert_erase {α : Type} [DecidableEq α] (u : α) (T : Finset α) :
    (insert u T).card = (T.erase u).card + 1 := by
  by_cases hu : u ∈ T
  · rw [Finset.insert_eq_self.mpr hu, ← Finset.card_erase_add_one hu]
  · rw [Finset.card_insert_of_not_mem hu, Finset.erase_eq_of_not_mem hu]

/-- The dedup loop keeps exactly one source per distinct (present,
non-empty) URL not already seen. -/
theorem dedupAux_length :
    ∀ (seen : List String) (l : List ResearchSource),
      (dedupAux seen l).length =
        (((l.filterMap urlKey).filter fun u => decide (u ∉ seen)).toFinset).card
  | _, [] => by simp [dedupAux]
  | seen, s :: rest => by
    cases hk : urlKey s with
    | none =>
      simp only [dedupAux, hk, List.filterMap_cons]
      exact dedupAux_length seen rest
    | some u =>
      by_cases hu : u ∈ seen
      · simp only [dedupAux, hk, if_pos hu, List.filterMap_cons]
        rw [dedupAux_length seen rest]
        simp [List.filter_cons, hu]
      · simp only [dedupAux, hk, if_neg hu, List.filterMap_cons, List.length_cons]
        rw [dedupAux_length (u :: seen) rest]
        have hsplit :
            (rest.filterMap urlKey).filter (fun v => decide (v ∉ u :: seen))
              = ((rest.filterMap urlKey).filter fun v => decide (v ∉ seen)).filter
                  fun v => decide (v ≠ u) := by
          rw [List.filter_filter]
          apply List.filter_congr
          intro v _
          simp [List.mem_cons, and_comm, not_or]
        rw [hsplit, List.toFinset_filter]
        have herase :
            Finset.filter (fun x => decide (x ≠ u) = true)
                ((rest.filterMap urlKey).filter fun v => decide (v ∉ seen)).toFinset
              = (((rest.filterMap urlKey).filter fun v => decide (v ∉ seen)).toFinset).erase u := by
          ext x
          simp [Finset.mem_erase, and_comm]
        rw [herase, List.filter_cons]
        simp [hu, card_insert_erase]

/-- First occurrence wins: for a present, non-empty, not-yet-seen URL,
the first source with that URL in the dedup output is the first source
with that URL in the input. -/
theorem dedupAux_find?_eq :
    ∀ (seen : List String) (l : List ResearchSource) (u : String),
      u ≠ "" → u ∉ seen →
      (dedupAux seen l).find? (fun s => decide (s.url = some u))
        = l.find? (fun s => decide (s.url = some u))
  | _, [], _, _, _ => rfl
  | seen, s :: rest, u, hne, hus => by
    cases hk : urlKey s with
    | none =>
      have hps : (decide (s.url = some u)) = false := by
        cases hs : s.url with
        | none => simp
        | some v =>
          have hv : v = "" := by
            by_contra hv
            simp [urlKey, hs, hv] at hk
          simp [hv]
          exact fun h => hne h.symm
      simp only [dedupAux, hk, List.find?_cons, hps]
      exact dedupAux_find?_eq seen rest u hne hus
    | some u' =>
      have hs : s.url = some u' := by
        cases hs : s.url with
        | none => simp [urlKey, hs] at hk
        | some v =>
          by_cases hv : v = ""
          · simp [urlKey, hs, hv] at hk
          · simp only [urlKey, hs, if_neg hv, Option.some.injEq] at hk
            rw [hk]
      by_cases hu' : u' ∈ seen
      · have hps : (decide (s.url = some u)) = false := by
          simp [hs]
          intro h
          exact hus (h ▸ hu')
        simp only [dedupAux, hk, if_pos hu', List.find?_cons, hps]
        exact dedupAux_find?_eq seen rest u hne hus
      · by_cases heq : u' = u
        · subst heq
          have hps : (decide (s.url = some u')) = true := by simp [hs]
          simp only [dedupAux, hk, if_neg hu', List.find?_cons, hps]
        · have hps : (decide (s.url = some u)) = false := by
            simp [hs]
            exact fun h => heq h
          simp only [dedupAux, hk, if_neg hu', List.find?_cons, hps]
          exact dedupAux_find?_eq (u' :: seen) rest u hne
            (by simp [List.mem_cons]; exact ⟨fun h => heq h.symm, hus⟩)

/-- Every survivor of the dedup loop has a present, non-empty URL. -/
theorem urlKey_of_mem_dedupAux :
    ∀ (seen : List String) (l : List ResearchSource) (t : ResearchSource),
      t ∈ dedupAux seen l → ∃ u, urlKey t = some u
  | _, [], t, h => by simp [dedupAux] at h
  | seen, s :: rest, t, h => by
    cases hk : urlKey s with
    | none =>
      simp only [dedupAux, hk] at h
      exact urlKey_of_mem_dedupAux seen rest t h
    | some u =>
      simp only [dedupAux, hk] at h
      by_cases hu : u ∈ seen
      · rw [if_pos hu] at h
        exact urlKey_of_mem_dedupAux seen rest t h
      · rw [if_neg hu] at h
        rcases List.mem_cons.mp h with rfl | h2
        · exact ⟨u, hk⟩
        · exact urlKey_of_mem_dedupAux (u :: seen) rest t h2

/-- Filtering out a different key does not change a lookup. -/
theorem lookup_filter_ne {k kf : String} (h : k ≠ kf) :
    ∀ (l : List (String × MetaVal)),
      (l.filter fun p => !decide (p.1 = kf)).lookup k = l.lookup k
  | [] => rfl
  | (a, b) :: l => by
    have ih := lookup_filter_ne h l
    by_cases ha : a = kf
    · subst ha
      have hka : (k == a) = false := by simp [h]
      simp [List.filter_cons, List.lookup, hka, ih]
    · by_cases hk2 : k = a
      · subst hk2
        simp [List.filter_cons, ha, List.lookup]
      · have hka : (k == a) = false := by simp [hk2]
        simp [List.filter_cons, ha, List.lookup, hka, ih]

theorem mdSet_lookup_same (md : List (String × MetaVal)) (k : String) (v : MetaVal) :
    (mdSet md k v).lookup k = some v := by
  simp [mdSet, List.lookup]

theorem mdSet_lookup_ne (md : List (String × MetaVal)) {k k' : String} (v : MetaVal)
    (h : k' ≠ k) : (mdSet md k v).lookup k' = md.lookup k' := by
  have hb : (k' == k) = false := by simp [h]
  have hf := lookup_filter_ne h md
  simp only [mdSet, List.lookup, hb]
  simpa using hf

/-- When no callback raises, the notification loop reaches every
listener in registration order. -/
theorem invokedFrom_all_ok :
    ∀ (cbs : List (Except String Unit)) (i : Nat),
      (∀ c ∈ cbs, c = Except.ok ()) →
      invokedFrom i cbs = List.range' i cbs.length
  | [], _, _ => rfl
  | c :: rest, i, h => by
    have hc : c = Except.ok () := h c (by simp)
    subst hc
    have := invokedFrom_all_ok rest (i + 1) fun c hc => h c (by simp [hc])
    simp [invokedFrom, this, List.range'_succ]

theorem notify_observers_all_ok :
    ∀ (cbs : List (Except String Unit)),
      (∀ c ∈ cbs, c = Except.ok ()) →
      notify_observers cbs = Except.ok ()
  | [], _ => rfl
  | c :: rest, h => by
    have hc : c = Except.ok () := h c (by simp)
    subst hc
    have := notify_observers_all_ok rest fun c hc => h c (by simp [hc])
    simp [notify_observers, this]

/-- A raising callback is the last one invoked. -/
theorem invokedFrom_append_error :
    ∀ (pre : List (Except String Unit)) (i : Nat) (e : String)
      (post : List (Except String Unit)),
      (∀ c ∈ pre, c = Except.ok ()) →
      invokedFrom i (pre ++ Except.error e :: post) = List.range' i (pre.length + 1)
  | [], i, e, post, _ => by simp [invokedFrom, List.range'_succ]
  | c :: pre, i, e, post, h => by
    have hc : c = Except.ok () := h c (by simp)
    subst hc
    have := invokedFrom_append_error pre (i + 1) e post fun c hc => h c (by simp [hc])
    simp only [List.cons_append, invokedFrom, List.length_cons]
    rw [List.range'_succ]
    simpa using this

theorem notify_observers_append_error :
    ∀ (pre : List (Except String Unit)) (e : String)
      (post : List (Except String Unit)),
      (∀ c ∈ pre, c = Except.ok ()) →
      notify_observers (pre ++ Except.error e :: post) = Except.error e
  | [], _, _, _ => rfl
  | c :: pre, e, post, h => by
    have hc : c = Except.ok () := h c (by simp)
    subst hc
    have := notify_observers_append_error pre e post fun c hc => h c (by simp [hc])
    simp [notify_observers, this]

/-- Terminal statuses of the lifecycle. -/
def isTerminal (s : ResearchStatus) : Bool :=
  s = ResearchStatus.completed ∨ s = ResearchStatus.failed

/-- Position of a status along the forward chain of the state machine
(§4.1 of the spec). -/
def statusRank : ResearchStatus → Nat
  | ResearchStatus.pending => 0
  | ResearchStatus.planning => 1
  | ResearchStatus.in_progress => 2
  | ResearchStatus.reviewing => 3
  | ResearchStatus.revising => 4
  | ResearchStatus.completed => 5
  | ResearchStatus.failed => 6

/-- One allowed transition of the state machine: from a non-terminal
status, either strictly forward along the chain (`failed` sits above
everything, so any non-terminal status may fail) or the explicit
`revising → reviewing` cycle edge. -/
def allowedStep (a b : ResearchStatus) : Prop :=
  isTerminal a = false ∧
    (statusRank a < statusRank b ∨
      (a = ResearchStatus.revising ∧ b = ResearchStatus.reviewing))

/-- The status writes of a fixed complete run used to exhibit the
cancellation interleaving: the critique capability raises, so the loop
aborts locally and the run finishes with `completed`. -/
def cexRunWrites : List ResearchStatus :=
  statusWrites (start_workflow (some sampleTask)
    (fun _ => Except.ok sampleResearcherOutput)
    (fun _ => Except.error "llm unavailable")
    (fun _ => Except.ok sampleReport2)).events




/-! The claims. -/

/-- C1: in the refinement loop a revision is performed if and only if the
critique's numeric score is below the configured threshold (6.5).  When
round 1's critique scores at or above the threshold the loop returns
through the quality gate at once — exactly one critique call, no revision
call, the task changed only by the appended feedback — for any remaining
loop budget `fuel` and any feedback (hence any categorical `decision`
value, which the loop never reads).  When the score is below the
threshold, a Revision Capability call occurs. -/
theorem claim_C1_quality_gate
    (critic : ResearchTask → Except String CritiqueFeedback)
    (reviser : ResearchTask → Except String ResearchReport)
    (task : ResearchTask) (fuel loopCount : Nat) (f : CritiqueFeedback)
    (hc : critic task = Except.ok f) (hfuel : 0 < fuel) :
    (min_quality_score ≤ f.overall_score →
      (refinementRounds critic reviser min_quality_score fuel loopCount task).exit
          = LoopExit.gatePassed ∧
      (refinementRounds critic reviser min_quality_score fuel loopCount task).task
          = { task with feedback_history := task.feedback_history ++ [f] } ∧
      Event.reviserCall ∉
        (refinementRounds critic reviser min_quality_score fuel loopCount task).events ∧
      critic_calls
        (refinementRounds critic reviser min_quality_score fuel loopCount task).events
          = 1) ∧
    (f.overall_score < min_quality_score →
      Event.reviserCall ∈
        (refinementRounds critic reviser min_quality_score fuel loopCount task).events) := by
  obtain ⟨n, rfl⟩ : ∃ n, fuel = n + 1 := ⟨fuel - 1, (Nat.succ_pred_eq_of_pos hfuel).symm⟩
  constructor
  · intro hge
    simp only [refinementRounds, hc, if_pos hge]
    refine ⟨trivial, trivial, ?_, ?_⟩
    · simp [Event.reviserCall]
    · simp [critic_calls, List.countP_append, List.countP_cons]
  · intro hlt
    simp only [refinementRounds, hc, if_neg (not_le.mpr hlt)]
    cases hr : reviser { task with feedback_history := task.feedback_history ++ [f] } with
    | error e => simp
    | ok r => simp

/-- Witness for C1 at a concrete input: a critique scoring 7 with
decision `revise` short-circuits the loop even with budget 5 left. -/
theorem claim_C1_quality_gate_witness :
    ((fun (_ : ResearchTask) => (Except.ok (sampleFeedback 7 "revise") :
        Except String CritiqueFeedback)) sampleTask
      = Except.ok (sampleFeedback 7 "revise")) ∧
    0 < 5 ∧
    ((refinementRounds (fun _ => Except.ok (sampleFeedback 7 "revise"))
        (fun _ => Except.ok sampleReport2) min_quality_score 5 0 sampleTask).exit
      = LoopExit.gatePassed ∧
    Event.reviserCall ∉
      (refinementRounds (fun _ => Except.ok (sampleFeedback 7 "revise"))
        (fun _ => Except.ok sampleReport2) min_quality_score 5 0 sampleTask).events) :=
  have h := claim_C1_quality_gate (fun _ => Except.ok (sampleFeedback 7 "revise"))
    (fun _ => Except.ok sampleReport2) sampleTask 5 0 (sampleFeedback 7 "revise")
    rfl (by decide)
  have hge : min_quality_score ≤ (sampleFeedback 7 "revise").overall_score := by
    norm_num [sampleFeedback, min_quality_score]
  ⟨rfl, by decide, (h.1 hge).1, (h.1 hge).2.2.1⟩

/-- C2: the task's revision counter never exceeds the orchestrator's loop
budget.  First conjunct: for any behaviours and any budget, the loop adds
at most `fuel` to the counter.  Second conjunct: through `start_workflow`
(hard-coded budget 1), a task starting at 0 ends with `revision_count ≤ 1`.
Third conjunct (end-to-end scenario B): when the critique always scores
below the threshold and every capability succeeds, exactly one revision
occurs, the final `revision_count` is exactly 1, and the run still ends
`completed` (the loop exhausts instead of sticking). -/
theorem claim_C2_revision_cap :
    (∀ (critic : ResearchTask → Except String CritiqueFeedback)
       (reviser : ResearchTask → Except String ResearchReport)
       (m : ℚ) (fuel k : Nat) (task : ResearchTask),
      (refinementRounds critic reviser m fuel k task).task.revision_count
        ≤ task.revision_count + fuel) ∧
    (∀ (researcher : ResearchTask → Except String ResearcherOutput)
       (critic : ResearchTask → Except String CritiqueFeedback)
       (reviser : ResearchTask → Except String ResearchReport)
       (task t : ResearchTask),
      task.revision_count = 0 →
      (start_workflow (some task) researcher critic reviser).task = some t →
      t.revision_count ≤ 1) ∧
    (∀ (task : ResearchTask) (out : ResearcherOutput) (f : CritiqueFeedback)
       (rep : ResearchReport),
      task.revision_count = 0 →
      f.overall_score < min_quality_score →
      ((start_workflow (some task) (fun _ => Except.ok out)
          (fun _ => Except.ok f) (fun _ => Except.ok rep)).task.map
            fun t => t.revision_count) = some 1 ∧
      reviser_calls (start_workflow (some task) (fun _ => Except.ok out)
          (fun _ => Except.ok f) (fun _ => Except.ok rep)).events = 1 ∧
      finalStatus (start_workflow (some task) (fun _ => Except.ok out)
          (fun _ => Except.ok f) (fun _ => Except.ok rep)).events
        = some ResearchStatus.completed) := by
  refine ⟨refinementRounds_revision_count_le, ?_, ?_⟩
  · intro researcher critic reviser task t h0 ht
    simp only [start_workflow] at ht
    cases hres : researcher task with
    | error e =>
      rw [hres] at ht
      simp at ht
      subst ht
      omega
    | ok out =>
      rw [hres] at ht
      simp only [] at ht
      rw [enter_refinement_loop_task] at ht
      simp at ht
      subst ht
      have hb := refinementRounds_revision_count_le critic reviser min_quality_score 1 0
        { task with
          plan := out.plan
          raw_search_results := out.raw_search_results
          tools_called := out.tools_called
          current_report := some out.report }
      simp at hb
      omega
  · intro task out f rep h0 hlt
    simp only [start_workflow, enter_refinement_loop, refinementRounds,
      if_neg (not_le.mpr hlt)]
    refine ⟨?_, ?_, ?_⟩
    · simp [h0]
    · have hp := reviser_calls_of_onlyLogs (onlyLogs_planLogs out.plan)
      have ht := reviser_calls_of_onlyLogs (onlyLogs_toolLogs out.tools_called)
      have hr := reviser_calls_of_onlyLogs (onlyLogs_rawLogs out.raw_search_results)
      simp only [reviser_calls] at hp ht hr ⊢
      simp [hp, ht, hr]
    · have hp := statusWrites_of_onlyLogs (onlyLogs_planLogs out.plan)
      have ht := statusWrites_of_onlyLogs (onlyLogs_toolLogs out.tools_called)
      have hr := statusWrites_of_onlyLogs (onlyLogs_rawLogs out.raw_search_results)
      simp only [statusWrites] at hp ht hr
      simp [finalStatus, statusWrites, hp, ht, hr]

/-- Witness for C2 at a concrete input: scenario B with a critique always
scoring 3.0 and a loop budget of 1. -/
theorem claim_C2_revision_cap_witness :
    sampleTask.revision_count = 0 ∧
    (sampleFeedback 3 "revise").overall_score < min_quality_score ∧
    (((start_workflow (some sampleTask) (fun _ => Except.ok sampleResearcherOutput)
        (fun _ => Except.ok (sampleFeedback 3 "revise"))
        (fun _ => Except.ok sampleReport2)).task.map
          fun t => t.revision_count) = some 1 ∧
    reviser_calls (start_workflow (some sampleTask)
        (fun _ => Except.ok sampleResearcherOutput)
        (fun _ => Except.ok (sampleFeedback 3 "revise"))
        (fun _ => Except.ok sampleReport2)).events = 1 ∧
    finalStatus (start_workflow (some sampleTask)
        (fun _ => Except.ok sampleResearcherOutput)
        (fun _ => Except.ok (sampleFeedback 3 "revise"))
        (fun _ => Except.ok sampleReport2)).events
      = some ResearchStatus.completed) :=
  have hlt : (sampleFeedback 3 "revise").overall_score < min_quality_score := by
    norm_num [sampleFeedback, min_quality_score]
  ⟨rfl, hlt,
    claim_C2_revision_cap.2.2 sampleTask sampleResearcherOutput
      (sampleFeedback 3 "revise") sampleReport2 rfl hlt⟩

/-- C3: any unrecovered exception in the top-level `start_workflow`
sequence — in the source only `researcher.process` can raise into the
top-level handler, every other call swallowing its own errors — makes the
run persist status `failed` and record a log entry carrying the raised
error text, and the exception is swallowed at the boundary: the model of
`start_workflow` is a total function into `WorkflowResult`, so no error
value reaches the caller for any behaviours. -/
theorem claim_C3_unrecovered_exception_swallowed
    (task : ResearchTask) (e : String)
    (critic : ResearchTask → Except String CritiqueFeedback)
    (reviser : ResearchTask → Except String ResearchReport) :
    finalStatus (start_workflow (some task) (fun _ => Except.error e)
        critic reviser).events = some ResearchStatus.failed ∧
    Event.logMessage AgentType.researcher ("CRITICAL ERROR: " ++ e)
        ∈ (start_workflow (some task) (fun _ => Except.error e) critic reviser).events ∧
    statusWrites (start_workflow (some task) (fun _ => Except.error e)
        critic reviser).events
      = [ResearchStatus.in_progress, ResearchStatus.failed] := by
  simp [start_workflow, finalStatus, statusWrites]

/-- C4: a failure inside a critique/revision cycle aborts the loop, is
logged with the `Refinement error` prefix, leaves the last successfully
produced report as the task's current report, and does not fail the
workflow: the run still finishes `completed`.  First conjunct: the
critique capability raises (the current report stays the first draft).
Second conjunct: the critique succeeds below threshold and the revision
capability raises (the draft stays current and the critique is still
recorded). -/
theorem claim_C4_loop_local_recovery :
    (∀ (task : ResearchTask) (out : ResearcherOutput) (e : String)
       (critic : ResearchTask → Except String CritiqueFeedback)
       (reviser : ResearchTask → Except String ResearchReport),
      (∀ t, critic t = Except.error e) →
      finalStatus (start_workflow (some task) (fun _ => Except.ok out)
          critic reviser).events = some ResearchStatus.completed ∧
      ((start_workflow (some task) (fun _ => Except.ok out) critic reviser).task.map
          fun t => t.current_report) = some (some out.report) ∧
      Event.logMessage AgentType.critic (refinementErrorMsg e)
          ∈ (start_workflow (some task) (fun _ => Except.ok out) critic reviser).events) ∧
    (∀ (task : ResearchTask) (out : ResearcherOutput) (e : String)
       (f : CritiqueFeedback)
       (critic : ResearchTask → Except String CritiqueFeedback)
       (reviser : ResearchTask → Except String ResearchReport),
      f.overall_score < min_quality_score →
      (∀ t, critic t = Except.ok f) →
      (∀ t, reviser t = Except.error e) →
      finalStatus (start_workflow (some task) (fun _ => Except.ok out)
          critic reviser).events = some ResearchStatus.completed ∧
      ((start_workflow (some task) (fun _ => Except.ok out) critic reviser).task.map
          fun t => t.current_report) = some (some out.report) ∧
      ((start_workflow (some task) (fun _ => Except.ok out) critic reviser).task.map
          fun t => t.feedback_history) = some (task.feedback_history ++ [f]) ∧
      Event.logMessage AgentType.critic (refinementErrorMsg e)
          ∈ (start_workflow (some task) (fun _ => Except.ok out) critic reviser).events) := by
  constructor
  · intro task out e critic reviser hc
    simp only [start_workflow, enter_refinement_loop, refinementRounds, hc]
    refine ⟨?_, ?_, ?_⟩
    · have hp := statusWrites_of_onlyLogs (onlyLogs_planLogs out.plan)
      have ht := statusWrites_of_onlyLogs (onlyLogs_toolLogs out.tools_called)
      have hr := statusWrites_of_onlyLogs (onlyLogs_rawLogs out.raw_search_results)
      simp only [statusWrites] at hp ht hr
      simp [finalStatus, statusWrites, hp, ht, hr]
    · simp
    · simp
  · intro task out e f critic reviser hlt hc hr
    simp only [start_workflow, enter_refinement_loop, refinementRounds, hc, hr,
      if_neg (not_le.mpr hlt)]
    refine ⟨?_, ?_, ?_, ?_⟩
    · have hp := statusWrites_of_onlyLogs (onlyLogs_planLogs out.plan)
      have ht := statusWrites_of_onlyLogs (onlyLogs_toolLogs out.tools_called)
      have hraw := statusWrites_of_onlyLogs (onlyLogs_rawLogs out.raw_search_results)
      simp only [statusWrites] at hp ht hraw
      simp [finalStatus, statusWrites, hp, ht, hraw]
    · simp
    · simp
    · simp

/-- Witness for C4 at a concrete input: the critique capability raising
on the fresh sample run. -/
theorem claim_C4_loop_local_recovery_witness :
    (∀ t : ResearchTask,
      (fun (_ : ResearchTask) => (Except.error "llm unavailable" :
        Except String CritiqueFeedback)) t = Except.error "llm unavailable") ∧
    (finalStatus (start_workflow (some sampleTask)
        (fun _ => Except.ok sampleResearcherOutput)
        (fun _ => Except.error "llm unavailable")
        (fun _ => Except.ok sampleReport2)).events = some ResearchStatus.completed ∧
    ((start_workflow (some sampleTask) (fun _ => Except.ok sampleResearcherOutput)
        (fun _ => Except.error "llm unavailable")
        (fun _ => Except.ok sampleReport2)).task.map
          fun t => t.current_report) = some (some sampleResearcherOutput.report) ∧
    Event.logMessage AgentType.critic (refinementErrorMsg "llm unavailable")
        ∈ (start_workflow (some sampleTask) (fun _ => Except.ok sampleResearcherOutput)
            (fun _ => Except.error "llm unavailable")
            (fun _ => Except.ok sampleReport2)).events) :=
  ⟨fun _ => rfl,
    claim_C4_loop_local_recovery.1 sampleTask sampleResearcherOutput "llm unavailable"
      (fun _ => Except.error "llm unavailable") (fun _ => Except.ok sampleReport2)
      (fun _ => rfl)⟩

/-- C5: deduplication is a pure function of URL.  First conjunct: when
every gathered source carries a present, non-empty URL, the merged list's
size is the number of distinct URLs.  Second conjunct: for any non-empty
URL, the surviving entry is the first source carrying it in gather order
(web results before Wikipedia results, each in provider order).  Third
conjunct: merging provider results `{A, B}` and `{B, C}` yields exactly
`{A, B, C}`, of size 3, keeping the first `B`. -/
theorem claim_C5_dedup_by_url :
    (∀ webResults wikiResults : List ResearchSource,
      (∀ s ∈ webResults ++ wikiResults, ∃ u, u ≠ "" ∧ s.url = some u) →
      (gather_data_parallel webResults wikiResults).length
        = (((webResults ++ wikiResults).filterMap fun s => s.url).toFinset).card) ∧
    (∀ (webResults wikiResults : List ResearchSource) (u : String),
      u ≠ "" →
      (gather_data_parallel webResults wikiResults).find?
          (fun s => decide (s.url = some u))
        = (webResults ++ wikiResults).find? (fun s => decide (s.url = some u))) ∧
    (gather_data_parallel [srcAt "A" "a", srcAt "B" "b"]
        [srcAt "B" "b2", srcAt "C" "c"]
      = [srcAt "A" "a", srcAt "B" "b", srcAt "C" "c"] ∧
    (gather_data_parallel [srcAt "A" "a", srcAt "B" "b"]
        [srcAt "B" "b2", srcAt "C" "c"]).length = 3) := by
  refine ⟨?_, ?_, by decide, by decide⟩
  · intro webResults wikiResults hv
    have h := dedupAux_length [] (webResults ++ wikiResults)
    have hkeys : ((webResults ++ wikiResults).filterMap urlKey)
        = ((webResults ++ wikiResults).filterMap fun s => s.url) := by
      apply List.filterMap_congr
      intro s hs
      rcases hv s hs with ⟨u, hu, hsu⟩
      simp [urlKey, hsu, hu]
    have hfil : ∀ xs : List String,
        xs.filter (fun u => decide (u ∉ ([] : List String))) = xs := by
      intro xs
      apply List.filter_eq_self.mpr
      intro u _
      simp
    rw [gather_data_parallel, dedupByUrl, h, hkeys, hfil]
  · intro webResults wikiResults u hu
    exact dedupAux_find?_eq [] (webResults ++ wikiResults) u hu (by simp)

/-- Witness for C5 at a concrete input: the scenario-D provider results
with overlapping URLs. -/
theorem claim_C5_dedup_by_url_witness :
    (∀ s ∈ [srcAt "A" "a", srcAt "B" "b"] ++ [srcAt "B" "b2", srcAt "C" "c"],
      ∃ u, u ≠ "" ∧ s.url = some u) ∧
    ("B" ≠ "") ∧
    ((gather_data_parallel [srcAt "A" "a", srcAt "B" "b"]
        [srcAt "B" "b2", srcAt "C" "c"]).length
      = ((([srcAt "A" "a", srcAt "B" "b"] ++ [srcAt "B" "b2", srcAt "C" "c"]).filterMap
          fun s => s.url).toFinset).card ∧
    (gather_data_parallel [srcAt "A" "a", srcAt "B" "b"]
        [srcAt "B" "b2", srcAt "C" "c"]).find? (fun s => decide (s.url = some "B"))
      = ([srcAt "A" "a", srcAt "B" "b"] ++ [srcAt "B" "b2", srcAt "C" "c"]).find?
          (fun s => decide (s.url = some "B"))) :=
  have hv : ∀ s ∈ [srcAt "A" "a", srcAt "B" "b"] ++ [srcAt "B" "b2", srcAt "C" "c"],
      ∃ u, u ≠ "" ∧ s.url = some u := by
    intro s hs
    simp only [List.cons_append, List.nil_append, List.mem_cons,
      List.not_mem_nil, or_false] at hs
    rcases hs with rfl | rfl | rfl | rfl
    · exact ⟨"A", by decide, rfl⟩
    · exact ⟨"B", by decide, rfl⟩
    · exact ⟨"B", by decide, rfl⟩
    · exact ⟨"C", by decide, rfl⟩
  ⟨hv, by decide,
    claim_C5_dedup_by_url.1 [srcAt "A" "a", srcAt "B" "b"]
      [srcAt "B" "b2", srcAt "C" "c"] hv,
    claim_C5_dedup_by_url.2.1 [srcAt "A" "a", srcAt "B" "b"]
      [srcAt "B" "b2", srcAt "C" "c"] "B" (by decide)⟩

/-- C6 counterexample: with two registered listeners whose callbacks
behave as `[raises "boom", returns]`, `_notify_observers` invokes only
the first listener — the second never receives the event, and the
exception propagates out of the notification loop — refuting the claim
that delivery to the remaining listeners is isolated from a listener
failure. -/
theorem claim_C6_counterexample :
    invoked [Except.error "boom", Except.ok ()] ≠ List.range 2 ∧
    invoked [Except.error "boom", Except.ok ()] = [0] ∧
    notify_observers [Except.error "boom", Except.ok ()] = Except.error "boom" := by
  refine ⟨by decide, rfl, rfl⟩

/-- C6 amended: `_notify_observers` delivers each event to the listeners
in registration order, but with no per-listener failure isolation: when
no callback raises, all of them are invoked in registration order and the
loop returns normally; when some callback raises (the earlier ones
returning), the listeners registered after it are never invoked — the
raising callback is the last one reached — and the exception propagates
to the emitter. -/
theorem claim_C6_observer_notification_amended :
    (∀ cbs : List (Except String Unit),
      (∀ c ∈ cbs, c = Except.ok ()) →
      invoked cbs = List.range cbs.length ∧
      notify_observers cbs = Except.ok ()) ∧
    (∀ (pre : List (Except String Unit)) (e : String)
       (post : List (Except String Unit)),
      (∀ c ∈ pre, c = Except.ok ()) →
      invoked (pre ++ Except.error e :: post) = List.range (pre.length + 1) ∧
      notify_observers (pre ++ Except.error e :: post) = Except.error e) := by
  constructor
  · intro cbs h
    refine ⟨?_, notify_observers_all_ok cbs h⟩
    rw [invoked, invokedFrom_all_ok cbs 0 h, List.range_eq_range']
  · intro pre e post h
    refine ⟨?_, notify_observers_append_error pre e post h⟩
    rw [invoked, invokedFrom_append_error pre 0 e post h, List.range_eq_range']

/-- Witness for the amended C6 at a concrete input: listeners
`[returns, raises, returns]` — only the first two are invoked. -/
theorem claim_C6_observer_notification_amended_witness :
    (∀ c ∈ [(Except.ok () : Except String Unit)], c = Except.ok ()) ∧
    (invoked ([Except.ok ()] ++ Except.error "boom" :: [Except.ok ()])
        = List.range 2 ∧
    notify_observers ([Except.ok ()] ++ Except.error "boom" :: [Except.ok ()])
        = Except.error "boom") :=
  ⟨fun _ hc => List.mem_singleton.mp hc,
    claim_C6_observer_notification_amended.2 [Except.ok ()] "boom" [Except.ok ()]
      (fun _ hc => List.mem_singleton.mp hc)⟩

/-- C7: `cancel_task` returns `false` and writes nothing when the task is
unknown or already terminal (`completed`/`failed`); for any other status
it persists `failed`, logs the cancellation, and returns `true`. -/
theorem claim_C7_cancel :
    (cancel_task none = (false, [])) ∧
    (∀ task : ResearchTask,
      (task.status = ResearchStatus.completed ∨ task.status = ResearchStatus.failed) →
      cancel_task (some task) = (false, [])) ∧
    (∀ task : ResearchTask,
      task.status ≠ ResearchStatus.completed →
      task.status ≠ ResearchStatus.failed →
      cancel_task (some task) = (true,
        [Event.statusUpdate ResearchStatus.failed,
         Event.logMessage AgentType.planner "Task cancelled by user request."])) := by
  refine ⟨rfl, ?_, ?_⟩
  · intro task h
    simp [cancel_task, h]
  · intro task h1 h2
    simp [cancel_task, h1, h2]

/-- Witness for C7 at a concrete input: cancelling the fresh pending
sample task is accepted and persists `failed`. -/
theorem claim_C7_cancel_witness :
    (sampleTask.status ≠ ResearchStatus.completed) ∧
    (sampleTask.status ≠ ResearchStatus.failed) ∧
    cancel_task (some sampleTask) = (true,
      [Event.statusUpdate ResearchStatus.failed,
       Event.logMessage AgentType.planner "Task cancelled by user request."]) :=
  ⟨by decide, by decide,
    claim_C7_cancel.2.2 sampleTask (by decide) (by decide)⟩

/-- C8 counterexample: `_update_status` writes the new status blindly, so
a `cancel_task` interleaved between a run's `reviewing` write and its
final write is accepted, persists `failed`, and is then overwritten by
the run's unconditional `completed` write: the store sequence is
`in_progress, reviewing, failed, completed` — `failed` is persisted
mid-sequence and the same run later overwrites it with `completed`,
writing two terminal statuses, which refutes the claim's "once failed,
never overwritten with completed / terminal exactly once" part. -/
theorem claim_C8_counterexample :
    cexRunWrites = [ResearchStatus.in_progress, ResearchStatus.reviewing,
      ResearchStatus.completed] ∧
    cancelInterleavedWrites ResearchStatus.pending cexRunWrites 2
      = ([ResearchStatus.in_progress, ResearchStatus.reviewing,
          ResearchStatus.failed, ResearchStatus.completed], true) ∧
    (cancelInterleavedWrites ResearchStatus.pending cexRunWrites 2).1.getLast?
      = some ResearchStatus.completed ∧
    ResearchStatus.failed ∈ (cancelInterleavedWrites ResearchStatus.pending cexRunWrites 2).1 ∧
    ((cancelInterleavedWrites ResearchStatus.pending cexRunWrites 2).1.countP
        fun s => isTerminal s) = 2 := by
  decide

/-- C8 amended: within a single run with no concurrently interleaved
cancellation, the persisted status sequence follows the state machine
monotonically — each consecutive write is strictly forward along
`pending → planning → in_progress → reviewing → revising → completed`,
with `failed` reachable from any non-terminal status and the explicit
`revising → reviewing` cycle edge — and exactly one terminal status is
written, as the final write.  The claim's further assertion that a
persisted `failed` is never later overwritten by `completed` holds only
within one run: a cancellation interleaved with a live run is overwritten
(see the counterexample), cancellation being advisory. -/
theorem claim_C8_status_machine_amended (task : ResearchTask)
    (researcher : ResearchTask → Except String ResearcherOutput)
    (critic : ResearchTask → Except String CritiqueFeedback)
    (reviser : ResearchTask → Except String ResearchReport) :
    List.Chain allowedStep ResearchStatus.pending
      (statusWrites (start_workflow (some task) researcher critic reviser).events) ∧
    ((statusWrites (start_workflow (some task) researcher critic reviser).events).countP
        fun s => isTerminal s) = 1 ∧
    ∃ t, (statusWrites (start_workflow (some task) researcher critic reviser).events).getLast?
        = some t ∧ isTerminal t = true := by
  simp only [start_workflow]
  cases hres : researcher task with
  | error e =>
    refine ⟨?_, ?_, ?_⟩ <;> simp [statusWrites, allowedStep, isTerminal, statusRank]
  | ok out =>
    have hp := statusWrites_of_onlyLogs (onlyLogs_planLogs out.plan)
    have ht := statusWrites_of_onlyLogs (onlyLogs_toolLogs out.tools_called)
    have hraw := statusWrites_of_onlyLogs (onlyLogs_rawLogs out.raw_search_results)
    simp only [statusWrites] at hp ht hraw
    rcases loop_statusWrites critic reviser min_quality_score
        { task with
          plan := out.plan
          raw_search_results := out.raw_search_results
          tools_called := out.tools_called
          current_report := some out.report } with hl | hl <;>
      simp only [statusWrites] at hl <;>
      refine ⟨?_, ?_, ?_⟩ <;>
      simp [statusWrites, hp, ht, hraw, hl, allowedStep, isTerminal, statusRank]

/-- A prior report carrying a stamped revision number, and a task mid-loop
holding it together with one critique, used to instantiate C9. -/
def priorReport : ResearchReport :=
  { title := "Draft", abstract := "a", sections := [], conclusion := "c",
    references := [], metadata := [("revision_number", MetaVal.num 1)] }

/-- A task ready for revision: a current report and one feedback entry. -/
def sampleTaskForRevision : ResearchTask :=
  { sampleTask with
    current_report := some priorReport
    feedback_history := [sampleFeedback 3 "revise"] }

/-- C9: each successful revision produces a report whose
`metadata.revision_number` is the prior report's revision number plus
exactly one, alongside the critique score that triggered the revision
(`last_critique_score`) and the attribution tag
(`revised_by = "AI_Reviser_Agent"`).  Second conjunct: when the prior
report carries no revision number — the first draft stamps none — the
code starts from the default 1 and stamps 2. -/
theorem claim_C9_revision_metadata :
    (∀ (task : ResearchTask) (genReport prior : ResearchReport)
       (f : CritiqueFeedback) (n : ℚ),
      task.current_report = some prior →
      task.feedback_history.getLast? = some f →
      prior.metadata.lookup "revision_number" = some (MetaVal.num n) →
      ∃ rep, reviserProcess task genReport = Except.ok rep ∧
        rep.metadata.lookup "revision_number" = some (MetaVal.num (n + 1)) ∧
        rep.metadata.lookup "last_critique_score"
          = some (MetaVal.num f.overall_score) ∧
        rep.metadata.lookup "revised_by" = some (MetaVal.str "AI_Reviser_Agent")) ∧
    (∀ (task : ResearchTask) (genReport prior : ResearchReport)
       (f : CritiqueFeedback),
      task.current_report = some prior →
      task.feedback_history.getLast? = some f →
      prior.metadata.lookup "revision_number" = none →
      ∃ rep, reviserProcess task genReport = Except.ok rep ∧
        rep.metadata.lookup "revision_number" = some (MetaVal.num 2)) := by
  constructor
  · intro task genReport prior f n hcr hlast hrn
    simp only [reviserProcess, hcr, hlast]
    refine ⟨_, rfl, ?_, ?_, ?_⟩
    · rw [mdSet_lookup_ne _ _ (by decide), mdSet_lookup_ne _ _ (by decide),
        mdSet_lookup_same]
      simp [currentRevisionNumber, hrn]
    · rw [mdSet_lookup_ne _ _ (by decide), mdSet_lookup_same]
    · rw [mdSet_lookup_same]
  · intro task genReport prior f hcr hlast hrn
    simp only [reviserProcess, hcr, hlast]
    refine ⟨_, rfl, ?_⟩
    rw [mdSet_lookup_ne _ _ (by decide), mdSet_lookup_ne _ _ (by decide),
      mdSet_lookup_same]
    have : currentRevisionNumber prior.metadata = 1 := by
      simp [currentRevisionNumber, hrn]
    rw [this]
    norm_num

/-- Witness for C9 at a concrete input: revising a report stamped
`revision_number = 1` after a critique scoring 3 yields
`revision_number = 2` with the score and tag recorded. -/
theorem claim_C9_revision_metadata_witness :
    sampleTaskForRevision.current_report = some priorReport ∧
    sampleTaskForRevision.feedback_history.getLast? = some (sampleFeedback 3 "revise") ∧
    priorReport.metadata.lookup "revision_number" = some (MetaVal.num 1) ∧
    (∃ rep, reviserProcess sampleTaskForRevision sampleReport2 = Except.ok rep ∧
      rep.metadata.lookup "revision_number" = some (MetaVal.num (1 + 1)) ∧
      rep.metadata.lookup "last_critique_score"
        = some (MetaVal.num (sampleFeedback 3 "revise").overall_score) ∧
      rep.metadata.lookup "revised_by" = some (MetaVal.str "AI_Reviser_Agent")) :=
  ⟨rfl, rfl, rfl,
    claim_C9_revision_metadata.1 sampleTaskForRevision sampleReport2 priorReport
      (sampleFeedback 3 "revise") 1 rfl rfl rfl⟩

/-- C10: a gathered source whose URL is absent (`None`) or empty is
silently discarded by the dedup step: it never appears in the merged
source list, in the researcher's `raw_search_results` dump, or among the
sources handed to drafting — and therefore not in the task's persisted
`raw_search_results` after a full run either — even when it is the only
source a provider returned. -/
theorem claim_C10_invalid_url_discarded
    (webResults wikiResults : List ResearchSource) (s : ResearchSource)
    (task : ResearchTask) (genPlan : ResearchPlan)
    (toolRecords : List ToolCallRecord) (genReport : ResearchReport)
    (hbad : s.url = none ∨ s.url = some "") :
    s ∉ gather_data_parallel webResults wikiResults ∧
    s ∉ (researcherProcess task genPlan webResults wikiResults toolRecords
          genReport).raw_search_results ∧
    s ∉ researcherDraftSources webResults wikiResults ∧
    (∀ (critic : ResearchTask → Except String CritiqueFeedback)
       (reviser : ResearchTask → Except String ResearchReport)
       (t : ResearchTask),
      (start_workflow (some task)
          (fun tk => Except.ok (researcherProcess tk genPlan webResults wikiResults
            toolRecords genReport))
          critic reviser).task = some t →
      s ∉ t.raw_search_results) := by
  have hkey : urlKey s = none := by
    rcases hbad with h | h <;> simp [urlKey, h]
  have hcore : s ∉ gather_data_parallel webResults wikiResults := by
    intro hmem
    rcases urlKey_of_mem_dedupAux [] (webResults ++ wikiResults) s hmem with ⟨u, hu⟩
    rw [hkey] at hu
    exact Option.noConfusion hu
  refine ⟨hcore, ?_, hcore, ?_⟩
  · simpa [researcherProcess] using hcore
  · intro critic reviser t ht
    simp only [start_workflow, Option.some.injEq] at ht
    rw [enter_refinement_loop_task] at ht
    have hframe := refinementRounds_raw_search_results critic reviser min_quality_score 1 0
      { task with
        plan := (researcherProcess task genPlan webResults wikiResults toolRecords
          genReport).plan
        raw_search_results := (researcherProcess task genPlan webResults wikiResults
          toolRecords genReport).raw_search_results
        tools_called := (researcherProcess task genPlan webResults wikiResults
          toolRecords genReport).tools_called
        current_report := some (researcherProcess task genPlan webResults wikiResults
          toolRecords genReport).report }
    rw [ht] at hframe
    rw [hframe]
    simpa [researcherProcess] using hcore

/-- Witness for C10 at a concrete input: a URL-less source that is the
only result of the web provider is dropped everywhere. -/
theorem claim_C10_invalid_url_discarded_witness :
    (srcNoUrl.url = none ∨ srcNoUrl.url = some "") ∧
    (srcNoUrl ∉ gather_data_parallel [srcNoUrl] [] ∧
    srcNoUrl ∉ (researcherProcess sampleTask samplePlan [srcNoUrl] [] []
          sampleReport).raw_search_results ∧
    srcNoUrl ∉ researcherDraftSources [srcNoUrl] [] ∧
    (∀ (critic : ResearchTask → Except String CritiqueFeedback)
       (reviser : ResearchTask → Except String ResearchReport)
       (t : ResearchTask),
      (start_workflow (some sampleTask)
          (fun tk => Except.ok (researcherProcess tk samplePlan [srcNoUrl] [] []
            sampleReport))
          critic reviser).task = some t →
      srcNoUrl ∉ t.raw_search_results)) :=
  ⟨Or.inl rfl,
    claim_C10_invalid_url_discarded [srcNoUrl] [] srcNoUrl sampleTask samplePlan []
      sampleReport (Or.inl rfl)⟩
